import Mathlib

/-!
# Verification of `googleChats.py`

A shallow embedding of the Google Chat export converter `googleChats.py`:
file discovery (`findMessagesJson`), per-message field extraction
(`parseChats`), date normalization (`parseGoogleDate`), worksheet assembly
(`createWorkbook`) and final formatting (`cleanup`), together with theorems
settling the specification's claims about them.

Python dictionaries holding JSON data are embedded as structures whose
fields are `Option`-typed: `none` models an absent key.  `dict.get(k, d)`
becomes `Option.getD`, bracket access `d[k]` becomes a lookup that raises
`PyError.keyError` when the key is absent.  Strings are Lean `String`s;
filesystem paths are lists of path components.
-/

set_option autoImplicit false

namespace GoogleChats

/-! ## String helpers

Executable models of the Python string operations the script uses.  We
implement them over `List Char` so that every definition reduces by
`rfl`/`decide` (the core `String` versions use well-founded loops).
-/

/-- `str.lower()` (ASCII case folding, which is all the filenames need). -/
def pyLower (s : String) : String :=
  String.mk (s.data.map Char.toLower)

/-- `str.replace(a, b)` for a single-character pattern and replacement,
which is the only form the script uses (`' ' → ' '` and `'\\' → '/'`). -/
def replaceChar (s : String) (a b : Char) : String :=
  String.mk (s.data.map (fun c => if c = a then b else c))

/-- Whitespace as Python's `str.strip` / `re` `\s` sees it (ASCII part). -/
def pyIsSpace (c : Char) : Bool :=
  c.isWhitespace || c == '\x0b' || c == '\x0c'

/-- `str.strip()`: drop whitespace from both ends. -/
def pyStrip (s : String) : String :=
  String.mk (((s.data.dropWhile pyIsSpace).reverse.dropWhile pyIsSpace).reverse)

/-- `str.split('\n')` on character lists; always returns at least one group. -/
def splitNLAux : List Char → List (List Char)
  | [] => [[]]
  | c :: cs =>
    match splitNLAux cs with
    | [] => [[]]
    | g :: gs => if c = '\n' then [] :: g :: gs else (c :: g) :: gs

/-- `str.split('\n')`. -/
def splitNL (s : String) : List String :=
  (splitNLAux s.data).map String.mk

/-- `sep.join(l)`. -/
def joinSep (sep : String) : List String → String
  | [] => ""
  | [x] => x
  | x :: y :: xs => x ++ sep ++ joinSep sep (y :: xs)

/-- Zero-padded decimal rendering, used for `str(datetime)`. -/
def padZeros (k : Nat) (n : Nat) : String :=
  let s := toString n
  String.mk (List.replicate (k - s.length) '0') ++ s

/-! ## Errors -/

/-- The unhandled Python exceptions the script can raise while transforming
a message: `KeyError` from bracket access on a dict missing the key, and
`ValueError` from `datetime.strptime` on a malformed date string. -/
inductive PyError where
  | keyError (key : String)
  | valueError
deriving DecidableEq, Repr

/-! ## Date model and `parseGoogleDate`

`parseGoogleDate` calls `datetime.strptime(cleaned, '%A, %B %d, %Y at
%I:%M:%S %p %Z')`.  We embed CPython's `_strptime` for this fixed format:
names match case-insensitively, each run of whitespace in the format
matches one or more whitespace characters, `%d`/`%I`/`%M`/`%S` match one
or two digits within their ranges, `%Y` matches four digits, `%p` matches
AM/PM, `%Z` matches the UTC/GMT labels, the whole input must be consumed,
and the resulting calendar date must be valid (the `datetime` constructor
validates it). -/

structure PyDateTime where
  year : Nat
  month : Nat
  day : Nat
  hour : Nat
  minute : Nat
  second : Nat
deriving DecidableEq, Repr

/-- `str(datetime(...))`, e.g. `"2024-10-25 03:20:36"`. -/
def pyStrDateTime (d : PyDateTime) : String :=
  padZeros 4 d.year ++ "-" ++ padZeros 2 d.month ++ "-" ++ padZeros 2 d.day ++ " " ++
    padZeros 2 d.hour ++ ":" ++ padZeros 2 d.minute ++ ":" ++ padZeros 2 d.second

def digitVal (c : Char) : Option Nat :=
  if c.isDigit then some (c.toNat - 48) else none

/-- Case-insensitive literal match; returns the rest of the input. -/
def matchCI : List Char → List Char → Option (List Char)
  | [], s => some s
  | _ :: _, [] => none
  | p :: ps, c :: cs => if p.toLower = c.toLower then matchCI ps cs else none

/-- Try each named alternative in order (models the compiled alternation
for `%A`, `%B`, `%p`, `%Z`). -/
def tryNames (names : List (String × Nat)) (s : List Char) : Option (Nat × List Char) :=
  match names with
  | [] => none
  | (n, v) :: rest =>
    match matchCI n.data s with
    | some s' => some (v, s')
    | none => tryNames rest s

/-- One mandatory whitespace character followed by any further whitespace
(the `\s+` that a whitespace run in the format compiles to). -/
def skipWs1 : List Char → Option (List Char)
  | [] => none
  | c :: cs => if pyIsSpace c then some (cs.dropWhile pyIsSpace) else none

def expectChar (c : Char) : List Char → Option (List Char)
  | [] => none
  | x :: xs => if x = c then some xs else none

/-- One or two digits forming a value in `[lo, hi]`, two digits preferred. -/
def parseNum2 (lo hi : Nat) : List Char → Option (Nat × List Char)
  | [] => none
  | c :: cs =>
    match digitVal c with
    | none => none
    | some d1 =>
      match cs with
      | c2 :: cs2 =>
        match digitVal c2 with
        | some d2 =>
          let v := 10 * d1 + d2
          if lo ≤ v ∧ v ≤ hi then some (v, cs2)
          else if lo ≤ d1 ∧ d1 ≤ hi then some (d1, cs) else none
        | none => if lo ≤ d1 ∧ d1 ≤ hi then some (d1, cs) else none
      | [] => if lo ≤ d1 ∧ d1 ≤ hi then some (d1, cs) else none

/-- Exactly four digits (`%Y`). -/
def parseYear4 : List Char → Option (Nat × List Char)
  | a :: b :: c :: d :: rest => do
    let x ← digitVal a
    let y ← digitVal b
    let z ← digitVal c
    let w ← digitVal d
    some (1000 * x + 100 * y + 10 * z + w, rest)
  | _ => none

def weekdayNames : List (String × Nat) :=
  [("Wednesday", 2), ("Saturday", 5), ("Thursday", 3), ("Tuesday", 1),
   ("Sunday", 6), ("Monday", 0), ("Friday", 4)]

def monthNames : List (String × Nat) :=
  [("September", 9), ("February", 2), ("November", 11), ("December", 12),
   ("January", 1), ("October", 10), ("August", 8), ("March", 3),
   ("April", 4), ("June", 6), ("July", 7), ("May", 5)]

def isLeapYear (y : Nat) : Bool :=
  (y % 4 = 0 && y % 100 ≠ 0) || y % 400 = 0

def daysInMonth (y m : Nat) : Nat :=
  if m = 2 then (if isLeapYear y then 29 else 28)
  else if m = 4 ∨ m = 6 ∨ m = 9 ∨ m = 11 then 30
  else 31

/-- `%A, ` then `%B` — weekday, comma, whitespace, month name. -/
def parseWdMonth (cs : List Char) : Option (Nat × List Char) :=
  match tryNames weekdayNames cs with
  | none => none
  | some (_, cs) =>
    match expectChar ',' cs with
    | none => none
    | some cs =>
      match skipWs1 cs with
      | none => none
      | some cs => tryNames monthNames cs

/-- ` %d, %Y` — whitespace, day, comma, whitespace, four-digit year. -/
def parseDayYear (cs : List Char) : Option (Nat × Nat × List Char) :=
  match skipWs1 cs with
  | none => none
  | some cs =>
    match parseNum2 1 31 cs with
    | none => none
    | some (day, cs) =>
      match expectChar ',' cs with
      | none => none
      | some cs =>
        match skipWs1 cs with
        | none => none
        | some cs =>
          match parseYear4 cs with
          | none => none
          | some (yr, cs) => some (day, yr, cs)

/-- ` at %I:%M:%S` — the literal `at` and the clock time. -/
def parseClock (cs : List Char) : Option (Nat × Nat × Nat × List Char) :=
  match skipWs1 cs with
  | none => none
  | some cs =>
    match matchCI "at".data cs with
    | none => none
    | some cs =>
      match skipWs1 cs with
      | none => none
      | some cs =>
        match parseNum2 1 12 cs with
        | none => none
        | some (h12, cs) =>
          match expectChar ':' cs with
          | none => none
          | some cs =>
            match parseNum2 0 59 cs with
            | none => none
            | some (mi, cs) =>
              match expectChar ':' cs with
              | none => none
              | some cs =>
                match parseNum2 0 61 cs with
                | none => none
                | some (sec, cs) => some (h12, mi, sec, cs)

/-- ` %p %Z` — AM/PM marker and the timezone label; the whole remaining
input must be consumed. -/
def parseAmPmTz (cs : List Char) : Option Nat :=
  match skipWs1 cs with
  | none => none
  | some cs =>
    match tryNames [("AM", 0), ("PM", 1)] cs with
    | none => none
    | some (ampm, cs) =>
      match skipWs1 cs with
      | none => none
      | some cs =>
        match tryNames [("UTC", 0), ("GMT", 0)] cs with
        | none => none
        | some (_, cs) => if cs.isEmpty then some ampm else none

/-- `%I` + `%p` to a 24-hour value. -/
def to24Hour (h12 ampm : Nat) : Nat :=
  if ampm = 1 then (if h12 = 12 then 12 else h12 + 12)
  else (if h12 = 12 then 0 else h12)

/-- `datetime.strptime(s, '%A, %B %d, %Y at %I:%M:%S %p %Z')`, returning
`none` where CPython raises `ValueError`. -/
def strptimeGoogle (s : String) : Option PyDateTime :=
  match parseWdMonth s.data with
  | none => none
  | some (mon, cs) =>
    match parseDayYear cs with
    | none => none
    | some (day, yr, cs) =>
      match parseClock cs with
      | none => none
      | some (h12, mi, sec, cs) =>
        match parseAmPmTz cs with
        | none => none
        | some ampm =>
          if 1 ≤ yr ∧ 1 ≤ day ∧ day ≤ daysInMonth yr mon then
            some ⟨yr, mon, day, to24Hour h12 ampm, mi, sec⟩
          else none

/-- The value `parseGoogleDate` returns: the empty string for empty input,
otherwise a parsed datetime. -/
inductive DateVal where
  | blank
  | dt (d : PyDateTime)
deriving DecidableEq, Repr

/-- The narrow no-break space `' '` the script strips out. -/
def nnbsp : Char := ' '

/--
```
def parseGoogleDate(raw):
    if not raw: return ''
    rawFormat = '%A, %B %d, %Y at %I:%M:%S %p %Z'
    cleaned = raw.replace(' ', ' ').strip()
    formatted = datetime.strptime(cleaned, rawFormat)
    return formatted
```
-/
def parseGoogleDate (raw : String) : Except PyError DateVal :=
  if raw = "" then .ok .blank
  else
    let cleaned := pyStrip (replaceChar raw nnbsp ' ')
    match strptimeGoogle cleaned with
    | some d => .ok (.dt d)
    | none => .error .valueError

/-! ## The message data model

JSON shape of one entry of the `messages` array of a `messages.json`
file.  Every field can be absent; `none` models an absent key. -/

structure Creator where
  email : Option String
deriving DecidableEq, Repr

structure Revision where
  created_date : Option String
deriving DecidableEq, Repr

structure Attachment where
  export_name : Option String
deriving DecidableEq, Repr

structure BackendUploadMetadata where
  upload_ip : Option String
deriving DecidableEq, Repr

structure UploadMeta where
  backend_upload_metadata : Option BackendUploadMetadata
deriving DecidableEq, Repr

structure Message where
  creator : Option Creator
  created_date : Option String
  previous_message_versions : Option (List Revision)
  text : Option String
  attached_files : Option (List Attachment)
  upload_metadata : Option (List UploadMeta)
deriving DecidableEq, Repr

/-- The empty dict `{}` standing in for a missing revision entry. -/
def emptyRevision : Revision := ⟨none⟩

/--
```
for upload in uploads:
    if upload['created_date'] != '': datetime = upload['created_date']
```
Bracket access raises `KeyError` when the entry has no `created_date`.
The loop keeps overwriting `datetime`, so the last non-empty value wins.
-/
def fallbackLoop : List Revision → String → Except PyError String
  | [], acc => .ok acc
  | r :: rs, acc =>
    match r.created_date with
    | none => .error (.keyError "created_date")
    | some cd => fallbackLoop rs (if cd ≠ "" then cd else acc)

/--
```
datetime = message.get('created_date','')
if not datetime:
    uploads = message.get('previous_message_versions',[{}])
    for upload in uploads: ...
```
-/
def computeDatetimeRaw (m : Message) : Except PyError String :=
  let dt := m.created_date.getD ""
  if dt = "" then fallbackLoop (m.previous_message_versions.getD [emptyRevision]) dt
  else .ok dt

/--
```
ipAddress = (message.get('upload_metadata', [{}])[0]
                    .get('backend_upload_metadata', {}).get('upload_ip')
             if message.get('upload_metadata') else '')
```
`none` models Python `None` (note that `.get('upload_ip')` has no default,
so an absent inner key yields `None`, not `''`).
-/
def ipOf (m : Message) : Option String :=
  match m.upload_metadata with
  | some (u :: _) => (u.backend_upload_metadata.getD ⟨none⟩).upload_ip
  | _ => some ""

/-- `attachList = [f.get('export_name', '') for f in message.get('attached_files', [])]` -/
def attachListOf (m : Message) : List String :=
  (m.attached_files.getD []).map (fun f => f.export_name.getD "")

/-- `sender = message.get('creator',{}).get('email','')` -/
def senderOf (m : Message) : String :=
  ((m.creator.getD ⟨none⟩).email).getD ""

/-! ## Paths and `os.path.relpath`

Filesystem paths are lists of components (the representation `pathlib`
splits a path into).  `os.path.relpath` on POSIX splits both paths into
components, drops the common leading run, and prepends one `..` per
remaining component of the start path; an empty result is `'.'`. -/

/-- Length of the common leading run of components. -/
def commonPrefixLen : List String → List String → Nat
  | a :: as, b :: bs => if a = b then commonPrefixLen as bs + 1 else 0
  | _, _ => 0

/-- Components of `os.path.relpath(path, start)`. -/
def relpathComponents (path start : List String) : List String :=
  let i := commonPrefixLen start path
  List.replicate (start.length - i) ".." ++ path.drop i

/-- Render a component list the way `os.path.relpath` returns it on a
forward-slash platform: components joined by `'/'`, `'.'` when empty. -/
def renderRelpath (comps : List String) : String :=
  if comps = [] then "." else joinSep "/" comps

/-- `os.path.relpath(absPath, start=workbookDir).replace('\\', '/')`. -/
def hyperlinkPath (absPath workbookDir : List String) : String :=
  replaceChar (renderRelpath (relpathComponents absPath workbookDir)) '\\' '/'

/-! ## The worksheet model

Just enough of an `openpyxl` worksheet for the script: a list of rows of
cells, column-width assignments, the auto-filter range and the frozen
pane.  A cell records its value, alignment, font, fill, hyperlink target
and named style. -/

/-- A cell value as `openpyxl` stores it: a string, a datetime, or Python
`None` (an empty cell). -/
inductive CellVal where
  | str (s : String)
  | dt (d : PyDateTime)
  | pynone
deriving DecidableEq, Repr

/-- `openpyxl.styles.Alignment`: unset attributes are `None`. -/
structure Alignment where
  horizontal : Option String
  vertical : Option String
  wrapText : Option Bool
deriving DecidableEq, Repr

def defaultAlign : Alignment := ⟨none, none, none⟩

/-- `Alignment(wrapText=True)` as built in `cleanup`. -/
def wrapAlign : Alignment := ⟨none, none, some true⟩

/-- `Alignment(horizontal='center', vertical='center')` for header cells. -/
def centerAlign : Alignment := ⟨some "center", some "center", none⟩

structure FontSpec where
  bold : Bool
  color : Option String
deriving DecidableEq, Repr

structure Cell where
  value : CellVal
  alignment : Alignment
  font : Option FontSpec
  fill : Option String
  hyperlink : Option String
  style : Option String
deriving DecidableEq, Repr

/-- A freshly appended cell: default style everywhere. -/
def plainCell (v : CellVal) : Cell :=
  ⟨v, defaultAlign, none, none, none, none⟩

structure Worksheet where
  rows : List (List Cell)
  widths : List (Nat × Nat)
  autoFilterRef : Option String
  freezePanes : Option String
deriving DecidableEq, Repr

def emptyWorksheet : Worksheet := ⟨[], [], none, none⟩

/-- Replace the element at index `i` (0-based) by `f` of it; out-of-range
indices leave the list unchanged. -/
def modifyAt {α : Type} : List α → Nat → (α → α) → List α
  | [], _, _ => []
  | a :: t, 0, f => f a :: t
  | a :: t, Nat.succ n, f => a :: modifyAt t n f

/-- `ws.append(values)`. -/
def appendValues (ws : Worksheet) (vals : List CellVal) : Worksheet :=
  { ws with rows := ws.rows ++ [vals.map plainCell] }

/-- Update the cell at 1-based row `r`, column `c`. -/
def updateCell (ws : Worksheet) (r c : Nat) (f : Cell → Cell) : Worksheet :=
  { ws with rows := modifyAt ws.rows (r - 1) (fun row => modifyAt row (c - 1) f) }

/-- The cell at 1-based row `r`, column `c`, when it exists. -/
def getCell (ws : Worksheet) (r c : Nat) : Option Cell :=
  (ws.rows.get? (r - 1)).bind (fun row => row.get? (c - 1))

def cellAlignment (ws : Worksheet) (r c : Nat) : Option Alignment :=
  (getCell ws r c).map Cell.alignment

/-- `ws.max_column` (over the cells that exist). -/
def maxColumn (ws : Worksheet) : Nat :=
  ws.rows.foldl (fun a r => max a r.length) 0

/-- `get_column_letter` for the single-letter columns the sheet uses. -/
def colLetter (n : Nat) : String :=
  String.mk [Char.ofNat (64 + n)]

/-! ## `parseChats` -/

/-- An Export File: the path of a discovered `messages.json` (as
components) and the list its top-level `messages` key holds. -/
structure JsonFile where
  path : List String
  messages : List Message
deriving Repr

/-- `jsonPath.parent` as components. -/
def parentOf (jf : JsonFile) : List String := jf.path.dropLast

/-- `chatID = jsonPath.parent.name`. -/
def chatIDOf (jf : JsonFile) : String := (parentOf jf).getLastD ""

/-- The datetime cell value: `''` or the parsed datetime. -/
def dateCellVal : DateVal → CellVal
  | .blank => .str ""
  | .dt d => .dt d

/-- The IP cell value: a string, or an empty (`None`) cell. -/
def ipCellVal : Option String → CellVal
  | some s => .str s
  | none => .pynone

/-- The six cells one message contributes, after both the `append` and
the hyperlink fix-up of column 5.  This is the specification-side view of
the loop body of `parseChats`; `processMessageWS` below is the loop body
itself, and the two are proved to agree. -/
def messageRow (chatID : String) (jsonParent workbookDir : List String) (m : Message) :
    Except PyError (List Cell) :=
  match computeDatetimeRaw m with
  | .error e => .error e
  | .ok dtraw =>
    match parseGoogleDate dtraw with
    | .error e => .error e
    | .ok dtp =>
      match attachListOf m with
      | [] =>
        .ok [plainCell (.str chatID), plainCell (dateCellVal dtp),
             plainCell (.str (senderOf m)), plainCell (.str (m.text.getD "")),
             plainCell (.str (joinSep "\n" (attachListOf m))),
             plainCell (ipCellVal (ipOf m))]
      | firstName :: _ =>
        .ok (modifyAt
          [plainCell (.str chatID), plainCell (dateCellVal dtp),
           plainCell (.str (senderOf m)), plainCell (.str (m.text.getD "")),
           plainCell (.str (joinSep "\n" (attachListOf m))),
           plainCell (ipCellVal (ipOf m))] 4 (fun c =>
          { c with value := .str (joinSep "\n" (attachListOf m)),
                   hyperlink := some (hyperlinkPath (jsonParent ++ [firstName]) workbookDir),
                   style := some "Hyperlink" }))

/-- The body of the `for message in messages` loop: compute the fields,
`outWS.append(...)`, then if there are attachments turn the attachment
cell of the row just appended (`rowIdx = outWS.max_row`) into a
hyperlink. -/
def processMessageWS (ws : Worksheet) (chatID : String)
    (jsonParent workbookDir : List String) (m : Message) :
    Except PyError Worksheet :=
  match computeDatetimeRaw m with
  | .error e => .error e
  | .ok dtraw =>
    match parseGoogleDate dtraw with
    | .error e => .error e
    | .ok dtp =>
      match attachListOf m with
      | [] =>
        .ok (appendValues ws [.str chatID, dateCellVal dtp,
          .str (senderOf m), .str (m.text.getD ""),
          .str (joinSep "\n" (attachListOf m)), ipCellVal (ipOf m)])
      | firstName :: _ =>
        let ws1 := appendValues ws [.str chatID, dateCellVal dtp,
          .str (senderOf m), .str (m.text.getD ""),
          .str (joinSep "\n" (attachListOf m)), ipCellVal (ipOf m)]
        .ok (updateCell ws1 ws1.rows.length 5 (fun c =>
          { c with value := .str (joinSep "\n" (attachListOf m)),
                   hyperlink := some (hyperlinkPath (jsonParent ++ [firstName]) workbookDir),
                   style := some "Hyperlink" }))

/-- The `for message in messages` loop. -/
def parseMessagesWS (chatID : String) (jsonParent workbookDir : List String) :
    Worksheet → List Message → Except PyError Worksheet
  | ws, [] => .ok ws
  | ws, m :: ms =>
    match processMessageWS ws chatID jsonParent workbookDir m with
    | .error e => .error e
    | .ok ws' => parseMessagesWS chatID jsonParent workbookDir ws' ms

/-- `parseChats(outWS, jsonFiles, workbookDir)`: the outer `for jsonPath
in jsonFiles` loop. -/
def parseChats (ws : Worksheet) (jsonFiles : List JsonFile) (workbookDir : List String) :
    Except PyError Worksheet :=
  match jsonFiles with
  | [] => .ok ws
  | jf :: fs =>
    match parseMessagesWS (chatIDOf jf) (parentOf jf) workbookDir ws jf.messages with
    | .error e => .error e
    | .ok ws' => parseChats ws' fs workbookDir

/-- Specification-side row list: one row per message of one file, in
in-file order. -/
def rowsOfMessages (chatID : String) (jsonParent workbookDir : List String) :
    List Message → Except PyError (List (List Cell))
  | [] => .ok []
  | m :: ms =>
    match messageRow chatID jsonParent workbookDir m with
    | .error e => .error e
    | .ok r =>
      match rowsOfMessages chatID jsonParent workbookDir ms with
      | .error e => .error e
      | .ok rs => .ok (r :: rs)

/-- Specification-side row list: files in discovery order, messages in
in-file order within each file. -/
def rowsOfFiles (workbookDir : List String) :
    List JsonFile → Except PyError (List (List Cell))
  | [] => .ok []
  | jf :: fs =>
    match rowsOfMessages (chatIDOf jf) (parentOf jf) workbookDir jf.messages with
    | .error e => .error e
    | .ok rs =>
      match rowsOfFiles workbookDir fs with
      | .error e => .error e
      | .ok rss => .ok (rs ++ rss)

/-! ## `cleanup` and `autofitColumn` -/

/-- The lines `str(cell.value).split('\n')` of a cell value, or `none`
for a `None` cell (which `autofitColumn` skips). -/
def cellLines : CellVal → Option (List String)
  | .pynone => none
  | .str s => some (splitNL s)
  | .dt d => some (splitNL (pyStrDateTime d))

/-- `max(len(str(line)) for line in ...)` (the split is never empty). -/
def longestLineLen (lines : List String) : Nat :=
  lines.foldl (fun a s => max a s.length) 0

/-- `ws.column_dimensions[colLetter].width = w`. -/
def setWidth (ws : Worksheet) (c w : Nat) : Worksheet :=
  { ws with widths := ws.widths ++ [(c, w)] }

/--
```
def autofitColumn(ws, colIdx, padding=2):
    maxLen = 0
    for cell in ws[colLetter]:
        if cell.value is None: continue
        longest = max(len(str(line)) for line in str(cell.value).split('\n'))
        maxLen = max(maxLen, longest)
    ws.column_dimensions[colLetter].width = maxLen + padding
```
-/
def autofitColumn (ws : Worksheet) (colIdx : Nat) (padding : Nat := 2) : Worksheet :=
  let maxLen := (ws.rows.filterMap (fun row => row.get? (colIdx - 1))).foldl
    (fun acc cell =>
      match cellLines cell.value with
      | none => acc
      | some lines => max acc (longestLineLen lines)) 0
  setWidth ws colIdx (maxLen + padding)

/-- Set the alignment of the cell at 1-based `(r, c)`. -/
def setAlignmentAt (ws : Worksheet) (r c : Nat) (a : Alignment) : Worksheet :=
  updateCell ws r c (fun cell => { cell with alignment := a })

/--
```
def cleanup(outWS):
    autofitColumn(outWS, 1); autofitColumn(outWS, 2); autofitColumn(outWS, 3)
    outWS.column_dimensions['D'].width = 80
    outWS.column_dimensions['E'].width = 50
    autofitColumn(outWS, 6)
    wrapAlign = Alignment(wrapText=True)
    maxRow = outWS.max_row
    outWS[f'D{maxRow}'].alignment = wrapAlign
    outWS[f'E{maxRow}'].alignment = wrapAlign
    outWS.auto_filter.ref = f"A1:{get_column_letter(outWS.max_column)}1"
    outWS.freeze_panes = "A2"
```
-/
def cleanup (ws : Worksheet) : Worksheet :=
  let ws := autofitColumn ws 1 2
  let ws := autofitColumn ws 2 2
  let ws := autofitColumn ws 3 2
  let ws := setWidth ws 4 80
  let ws := setWidth ws 5 50
  let ws := autofitColumn ws 6 2
  let maxRow := ws.rows.length
  let ws := setAlignmentAt ws maxRow 4 wrapAlign
  let ws := setAlignmentAt ws maxRow 5 wrapAlign
  { ws with autoFilterRef := some ("A1:" ++ colLetter (maxColumn ws) ++ "1"),
            freezePanes := some "A2" }

/-! ## `createWorkbook` -/

def headers : List String :=
  ["chatID", "datetime UTC", "sender", "text", "attachment", "IP address"]

/-- The header styling loop body: bold white font, black fill, centered
alignment on the cell at row 1, column `c`. -/
def styleHeader (ws : Worksheet) (c : Nat) : Worksheet :=
  updateCell ws 1 c (fun cell =>
    { cell with font := some ⟨true, some "FFFFFF"⟩, fill := some "000000",
                alignment := centerAlign })

/-- A workbook that `wb.save(outPath)` has persisted. -/
structure SavedWorkbook where
  sheet : Worksheet
deriving DecidableEq, Repr

/--
```
def createWorkbook(outPath, jsonFiles, rootDir):
    wb = Workbook(); ws = wb.active; ws.title = 'Messages'
    ws.append(headers)
    for col in range(1, len(headers)+1): <style header cell>
    parseChats(ws, jsonFiles, rootDir)
    cleanup(ws)
    wb.save(outPath)
```
-/
def createWorkbook (jsonFiles : List JsonFile) (workbookDir : List String) :
    Except PyError SavedWorkbook :=
  let ws0 := appendValues emptyWorksheet (headers.map CellVal.str)
  let ws1 := [1, 2, 3, 4, 5, 6].foldl styleHeader ws0
  match parseChats ws1 jsonFiles workbookDir with
  | .error e => .error e
  | .ok ws2 => .ok ⟨cleanup ws2⟩

/-! ## `findMessagesJson` and the filesystem model

A directory tree is a list of named nodes; a path is the list of names
from the root down.  `rootDir.rglob('*')` enumerates every descendant of
the root together with whether it is a regular file. -/

inductive FSNode where
  | file (name : String)
  | dir (name : String) (children : List FSNode)

mutual

/-- All descendant paths of one node, the node itself included, each
tagged with `p.is_file()`. -/
def nodeEntries : FSNode → List (List String × Bool)
  | .file n => [([n], true)]
  | .dir n cs => ([n], false) :: (childEntries cs).map (fun e => (n :: e.1, e.2))

/-- All descendant paths of a list of sibling nodes. -/
def childEntries : List FSNode → List (List String × Bool)
  | [] => []
  | c :: cs => nodeEntries c ++ childEntries cs

end

/--
```
def findMessagesJson(rootDir):
    return [p for p in rootDir.rglob('*')
            if p.is_file() and p.name.lower() == 'messages.json']
```
The tree is given as the root directory's children; paths are relative
to the root. -/
def findMessagesJson (root : List FSNode) : List (List String) :=
  ((childEntries root).filter
    (fun e => e.2 && pyLower (e.1.getLastD "") == "messages.json")).map (·.1)

/-- Specification-side: `p` names a regular file somewhere beneath the
given children (any nesting depth). -/
def isFileIn : List FSNode → List String → Bool
  | _, [] => false
  | cs, [n] =>
    cs.any (fun c => match c with | .file m => m == n | .dir _ _ => false)
  | cs, n :: n' :: rest =>
    cs.any (fun c =>
      match c with
      | .file _ => false
      | .dir m gs => m == n && isFileIn gs (n' :: rest))

/-! ## `main` -/

/-- The observable outcome of a run of `main`: the exit status, what was
printed, and the workbook written (if any). -/
structure MainResult where
  exitCode : Nat
  printedUsage : Bool
  printedNotDir : Bool
  printedNoFiles : Bool
  printedFoundCount : Option Nat
  wroteWorkbook : Option SavedWorkbook
deriving Repr

/--
```
def main():
    if len(sys.argv) != 2: print(usage); sys.exit(1)
    rootDir = Path(sys.argv[1]).expanduser().resolve()
    if not rootDir.is_dir(): print(error); sys.exit(1)
    jsonFiles = findMessagesJson(rootDir)
    if not jsonFiles: print("No messages.json files found under", rootDir); sys.exit(0)
    print(f"Found {len(jsonFiles)} ...")
    outXlsx = rootDir / 'googleChats.xlsx'
    createWorkbook(outXlsx, jsonFiles, rootDir)
    print(f"Created Excel workbook: {outXlsx}")
```
`argc` is `len(sys.argv)`, `rootIsDir` the result of `rootDir.is_dir()`,
`tree` the root directory's children, and `contents` gives the parsed
`messages` list of each discovered file (paths are root-relative, so the
workbook directory is `[]`). -/
def mainRun (argc : Nat) (rootIsDir : Bool) (tree : List FSNode)
    (contents : List String → List Message) : Except PyError MainResult :=
  if argc ≠ 2 then .ok ⟨1, true, false, false, none, none⟩
  else if rootIsDir = false then .ok ⟨1, false, true, false, none, none⟩
  else
    let jsonFiles := findMessagesJson tree
    if jsonFiles.isEmpty then .ok ⟨0, false, false, true, none, none⟩
    else
      match createWorkbook (jsonFiles.map (fun p => ⟨p, contents p⟩)) [] with
      | .error e => .error e
      | .ok wb => .ok ⟨0, false, false, false, some jsonFiles.length, some wb⟩

/-! ## Helper lemmas -/

theorem modifyAt_append_length {α : Type} (xs : List α) (y : α) (f : α → α) :
    modifyAt (xs ++ [y]) xs.length f = xs ++ [f y] := by
  induction xs with
  | nil => rfl
  | cons a t ih => simpa [modifyAt] using ih

theorem modifyAt_get?_ne {α : Type} (l : List α) (i j : Nat) (f : α → α) (h : i ≠ j) :
    (modifyAt l j f).get? i = l.get? i := by
  induction l generalizing i j with
  | nil => rfl
  | cons a t ih =>
    cases j with
    | zero =>
      cases i with
      | zero => exact absurd rfl h
      | succ i' => rfl
    | succ j' =>
      cases i with
      | zero => rfl
      | succ i' =>
        show (modifyAt t j' f).get? i' = t.get? i'
        exact ih i' j' (fun e => h (by rw [e]))

theorem modifyAt_get?_eq {α : Type} (l : List α) (i : Nat) (f : α → α) :
    (modifyAt l i f).get? i = (l.get? i).map f := by
  induction l generalizing i with
  | nil => rfl
  | cons a t ih =>
    cases i with
    | zero => rfl
    | succ i' => exact ih i'

theorem getCell_updateCell_ne (ws : Worksheet) (R C : Nat) (f : Cell → Cell)
    (r c : Nat) (hr : 1 ≤ r) (hc : 1 ≤ c) (hR : 1 ≤ R) (hC : 1 ≤ C)
    (h : r ≠ R ∨ c ≠ C) :
    getCell (updateCell ws R C f) r c = getCell ws r c := by
  unfold getCell updateCell
  rcases h with h | h
  · rw [modifyAt_get?_ne _ _ _ _ (by omega)]
  · rcases eq_or_ne r R with rfl | hne
    · rw [modifyAt_get?_eq]
      cases ws.rows.get? (r - 1) with
      | none => rfl
      | some row =>
        show (modifyAt row (C - 1) f).get? (c - 1) = row.get? (c - 1)
        exact modifyAt_get?_ne row (c - 1) (C - 1) f (by omega)
    · rw [modifyAt_get?_ne _ _ _ _ (by omega)]

theorem getCell_updateCell_eq (ws : Worksheet) (R C : Nat) (f : Cell → Cell) :
    getCell (updateCell ws R C f) R C = (getCell ws R C).map f := by
  unfold getCell updateCell
  rw [modifyAt_get?_eq]
  cases ws.rows.get? (R - 1) with
  | none => rfl
  | some row => exact modifyAt_get?_eq row (C - 1) f

/-- The raw-timestamp fallback loop keeps overwriting its variable, so —
provided every entry carries a `created_date` key — it returns the *last*
non-empty value, the accumulator when none is non-empty. -/
theorem fallbackLoop_spec (revs : List Revision) (acc : String)
    (h : ∀ r ∈ revs, r.created_date.isSome) :
    fallbackLoop revs acc
      = .ok (((revs.map (fun r => r.created_date.getD "")).filter
               (fun s => s ≠ "")).getLastD acc) := by
  induction revs generalizing acc with
  | nil => rfl
  | cons r rs ih =>
    obtain ⟨cd, hcd⟩ := Option.isSome_iff_exists.mp (h r (by simp))
    have hrs : ∀ x ∈ rs, x.created_date.isSome := fun x hx => h x (by simp [hx])
    by_cases hne : cd = ""
    · subst hne
      simp [fallbackLoop, hcd, ih acc hrs]
    · have step : fallbackLoop (r :: rs) acc = fallbackLoop rs cd := by
        conv_lhs => rw [fallbackLoop]
        rw [hcd]
        simp only []
        rw [if_pos hne]
      rw [step, ih cd hrs]
      congr 1
      simp only [List.map_cons, hcd, Option.getD_some, List.filter_cons]
      rw [if_pos (by simp [hne]), List.getLastD_cons]

/-- The loop body of `parseChats` appends exactly the one row that
`messageRow` describes (or raises exactly when `messageRow` does). -/
theorem processMessageWS_eq (ws : Worksheet) (cid : String)
    (par dir : List String) (m : Message) :
    processMessageWS ws cid par dir m
      = (messageRow cid par dir m).map
          (fun cells => { ws with rows := ws.rows ++ [cells] }) := by
  unfold processMessageWS messageRow
  cases hdt : computeDatetimeRaw m with
  | error e => rfl
  | ok dtraw =>
    simp only []
    cases hp : parseGoogleDate dtraw with
    | error e => rfl
    | ok dtp =>
      simp only []
      cases hA : attachListOf m with
      | nil => rfl
      | cons a rest =>
        simp only [Except.map]
        congr 1
        unfold updateCell appendValues
        simp only [List.length_append, List.length_map, List.length_cons,
          List.length_nil, Nat.add_sub_cancel]
        rw [modifyAt_append_length]
        rfl

/-- The message loop appends one row per message, in order. -/
theorem parseMessagesWS_eq (cid : String) (par dir : List String)
    (ws : Worksheet) (ms : List Message) :
    parseMessagesWS cid par dir ws ms
      = (rowsOfMessages cid par dir ms).map
          (fun rs => { ws with rows := ws.rows ++ rs }) := by
  induction ms generalizing ws with
  | nil =>
    show Except.ok ws = Except.ok { ws with rows := ws.rows ++ [] }
    simp
  | cons m ms ih =>
    unfold parseMessagesWS rowsOfMessages
    rw [processMessageWS_eq]
    cases hm : messageRow cid par dir m with
    | error e => rfl
    | ok cells =>
      simp only [Except.map]
      rw [ih]
      cases hs : rowsOfMessages cid par dir ms with
      | error e => rfl
      | ok rs =>
        simp only [Except.map]
        congr 1
        simp [List.append_assoc]

/-- `parseChats` appends, to whatever the worksheet already holds, the
rows of the files in discovery order with in-file message order. -/
theorem parseChats_eq (ws : Worksheet) (files : List JsonFile) (dir : List String) :
    parseChats ws files dir
      = (rowsOfFiles dir files).map (fun rs => { ws with rows := ws.rows ++ rs }) := by
  induction files generalizing ws with
  | nil =>
    show Except.ok ws = Except.ok { ws with rows := ws.rows ++ [] }
    simp
  | cons jf fs ih =>
    unfold parseChats rowsOfFiles
    rw [parseMessagesWS_eq]
    cases hm : rowsOfMessages (chatIDOf jf) (parentOf jf) dir jf.messages with
    | error e => rfl
    | ok rs =>
      simp only [Except.map]
      rw [ih]
      cases hs : rowsOfFiles dir fs with
      | error e => rfl
      | ok rss =>
        simp only [Except.map]
        congr 1
        simp [List.append_assoc]

theorem rowsOfMessages_length (cid : String) (par dir : List String)
    (ms : List Message) (rs : List (List Cell))
    (h : rowsOfMessages cid par dir ms = .ok rs) : rs.length = ms.length := by
  induction ms generalizing rs with
  | nil => cases h; rfl
  | cons m ms ih =>
    unfold rowsOfMessages at h
    cases hm : messageRow cid par dir m with
    | error e => rw [hm] at h; simp at h
    | ok cells =>
      rw [hm] at h
      simp only [] at h
      cases hs : rowsOfMessages cid par dir ms with
      | error e => rw [hs] at h; simp at h
      | ok rs' =>
        rw [hs] at h
        simp only [Except.ok.injEq] at h
        subst h
        simp [ih rs' hs]

theorem rowsOfFiles_length (dir : List String) (files : List JsonFile)
    (rs : List (List Cell)) (h : rowsOfFiles dir files = .ok rs) :
    rs.length = (files.map (fun jf => jf.messages.length)).sum := by
  induction files generalizing rs with
  | nil => cases h; rfl
  | cons jf fs ih =>
    unfold rowsOfFiles at h
    cases hm : rowsOfMessages (chatIDOf jf) (parentOf jf) dir jf.messages with
    | error e => rw [hm] at h; simp at h
    | ok rs1 =>
      rw [hm] at h
      simp only [] at h
      cases hs : rowsOfFiles dir fs with
      | error e => rw [hs] at h; simp at h
      | ok rs2 =>
        rw [hs] at h
        simp only [Except.ok.injEq] at h
        subst h
        simp [rowsOfMessages_length _ _ _ _ _ hm, ih rs2 hs]

/-- Files that all carry zero messages contribute no rows. -/
theorem rowsOfFiles_of_all_nil (dir : List String) (files : List JsonFile)
    (h : ∀ jf ∈ files, jf.messages = []) : rowsOfFiles dir files = .ok [] := by
  induction files with
  | nil => rfl
  | cons jf fs ih =>
    have h0 : jf.messages = [] := h jf (by simp)
    unfold rowsOfFiles
    rw [h0]
    rw [show rowsOfMessages (chatIDOf jf) (parentOf jf) dir [] = .ok [] from rfl]
    simp only []
    rw [ih (fun x hx => h x (by simp [hx]))]
    rfl


/-! ## Claim-side definitions

`claimFirstNonEmptyCreatedDate` follows the words of the specification's
timestamp-fallback sentence, for comparison with what the code computes. -/

/-- Modelled from the claim's words: the first entry of the revision
history with a non-empty `created_date` value, scanned in list order. -/
def claimFirstNonEmptyCreatedDate (revs : List Revision) : Option String :=
  revs.findSome? (fun r =>
    match r.created_date with
    | some cd => if cd ≠ "" then some cd else none
    | none => none)

/-! ## Concrete sample data used by counterexamples and witnesses -/

def dateFri : String := "Friday, October 25, 2024 at 3:20:36 AM UTC"

def dateSat : String := "Saturday, October 26, 2024 at 4:21:37 AM UTC"

/-- A message with an empty top-level timestamp and two revisions, both
carrying non-empty timestamps. -/
def msgTwoRevisions : Message :=
  ⟨none, some "", some [⟨some dateFri⟩, ⟨some dateSat⟩], none, none, none⟩

/-- A message carrying none of the optional keys (in particular no
`created_date` and no `previous_message_versions`). -/
def msgAllAbsent : Message := ⟨none, none, none, none, none, none⟩

/-- A message with an empty timestamp and a present-but-empty revision
history. -/
def msgEmptyRevisions : Message := ⟨none, some "", some [], none, none, none⟩

/-- A message whose `upload_metadata` list is non-empty but whose first
entry has no `backend_upload_metadata` key. -/
def msgBareUpload : Message :=
  ⟨none, some dateFri, none, none, none, some [⟨none⟩]⟩

/-- A fully populated message with two attachments. -/
def msgAttach : Message :=
  ⟨some ⟨some "a@b.example"⟩, some dateFri, none, some "hi",
   some [⟨some "a.png"⟩, ⟨some "b.png"⟩], none⟩

/-- A minimal message with only a creation timestamp. -/
def msgSimple : Message := ⟨none, some dateFri, none, none, none, none⟩

/-! ## Path lemmas -/

theorem commonPrefixLen_append (dir t : List String) :
    commonPrefixLen dir (dir ++ t) = dir.length := by
  induction dir with
  | nil => rfl
  | cons a d ih => simp [commonPrefixLen, ih]

/-- A path below the start directory is rendered relative to it by
dropping the common prefix (no `..` segments needed). -/
theorem relpathComponents_append (dir t : List String) :
    relpathComponents (dir ++ t) dir = t := by
  unfold relpathComponents
  rw [commonPrefixLen_append]
  simp [List.drop_left]

theorem renderRelpath_ne_nil (l : List String) (h : l ≠ []) :
    renderRelpath l = joinSep "/" l := by
  unfold renderRelpath
  rw [if_neg h]

/-! ## Discovery lemmas -/

theorem mem_childEntries (cs : List FSNode) (e : List String × Bool) :
    e ∈ childEntries cs ↔ ∃ c ∈ cs, e ∈ nodeEntries c := by
  induction cs with
  | nil => simp [childEntries]
  | cons c cs ih => simp [childEntries, ih]

theorem nodeEntries_path_ne_nil (c : FSNode) (e : List String × Bool)
    (h : e ∈ nodeEntries c) : e.1 ≠ [] := by
  cases c with
  | file n =>
    simp only [nodeEntries, List.mem_singleton] at h
    subst h
    simp
  | dir n gs =>
    simp only [nodeEntries, List.mem_cons, List.mem_map] at h
    rcases h with rfl | ⟨e1, -, rfl⟩
    · simp
    · simp

theorem file_nodeEntries_iff (m n : String) (rest : List String) :
    ((n :: rest, true) ∈ nodeEntries (.file m)) ↔ (n = m ∧ rest = []) := by
  simp [nodeEntries]

theorem dir_nodeEntries_iff (m : String) (gs : List FSNode) (n : String) (rest : List String) :
    ((n :: rest, true) ∈ nodeEntries (.dir m gs))
      ↔ (n = m ∧ (rest, true) ∈ childEntries gs) := by
  simp only [nodeEntries, List.mem_cons, List.mem_map, Prod.mk.injEq]
  constructor
  · rintro (⟨h1, h2⟩ | ⟨e1, he1, h1, h2⟩)
    · exact absurd h2 (by simp)
    · obtain ⟨hn, hrest⟩ := List.cons_eq_cons.mp h1
      refine ⟨hn.symm, ?_⟩
      have he : e1 = (rest, true) := by
        cases e1
        simp_all
      exact he ▸ he1
  · rintro ⟨rfl, h⟩
    exact Or.inr ⟨(rest, true), h, rfl, rfl⟩

theorem childEntries_file_iff : ∀ (p : List String) (cs : List FSNode),
    ((p, true) ∈ childEntries cs) ↔ isFileIn cs p = true := by
  intro p
  induction p with
  | nil =>
    intro cs
    constructor
    · intro h
      obtain ⟨c, -, hc⟩ := (mem_childEntries cs _).mp h
      exact absurd rfl (nodeEntries_path_ne_nil c _ hc)
    · intro h
      simp [isFileIn] at h
  | cons n rest ih =>
    intro cs
    rw [mem_childEntries]
    cases rest with
    | nil =>
      show _ ↔ isFileIn cs [n] = true
      simp only [isFileIn, List.any_eq_true]
      constructor
      · rintro ⟨c, hc, hin⟩
        refine ⟨c, hc, ?_⟩
        cases c with
        | file m =>
          rw [file_nodeEntries_iff] at hin
          simp [hin.1]
        | dir m gs =>
          rw [dir_nodeEntries_iff] at hin
          exact absurd ((ih gs).mp hin.2) (by simp [isFileIn])
      · rintro ⟨c, hc, hmatch⟩
        refine ⟨c, hc, ?_⟩
        cases c with
        | file m =>
          rw [file_nodeEntries_iff]
          simp only [] at hmatch
          exact ⟨(beq_iff_eq.mp hmatch).symm, rfl⟩
        | dir m gs => simp at hmatch
    | cons n2 rest2 =>
      show _ ↔ isFileIn cs (n :: n2 :: rest2) = true
      simp only [isFileIn, List.any_eq_true]
      constructor
      · rintro ⟨c, hc, hin⟩
        refine ⟨c, hc, ?_⟩
        cases c with
        | file m =>
          rw [file_nodeEntries_iff] at hin
          exact absurd hin.2 (by simp)
        | dir m gs =>
          rw [dir_nodeEntries_iff] at hin
          obtain ⟨rfl, h2⟩ := hin
          simp only [beq_self_eq_true, Bool.true_and]
          exact (ih gs).mp h2
      · rintro ⟨c, hc, hmatch⟩
        refine ⟨c, hc, ?_⟩
        cases c with
        | file m => simp at hmatch
        | dir m gs =>
          simp only [Bool.and_eq_true, beq_iff_eq] at hmatch
          rw [dir_nodeEntries_iff]
          exact ⟨hmatch.1.symm, (ih gs).mpr hmatch.2⟩

/-! ## Cleanup lemmas -/

/-- `cleanup` touches cells only through the two alignment writes at the
last row (the width, filter and freeze operations leave `rows` alone). -/
theorem cleanup_getCell (ws : Worksheet) (r c : Nat) :
    getCell (cleanup ws) r c
      = getCell (setAlignmentAt (setAlignmentAt ws ws.rows.length 4 wrapAlign)
          ws.rows.length 5 wrapAlign) r c := rfl

end GoogleChats

open GoogleChats

/-! # The claims -/

/-- C1, counterexample: for a message with an empty top-level timestamp
and revision history `[dateFri, dateSat]`, the first non-empty entry (the
claim's choice) is `dateFri`, but the code's scan — which keeps
overwriting without breaking — chooses `dateSat`, and the output row's
datetime cell holds the parse of `dateSat` (October 26), not of `dateFri`
(October 25). -/
theorem claim1_counterexample :
    claimFirstNonEmptyCreatedDate [⟨some dateFri⟩, ⟨some dateSat⟩] = some dateFri
    ∧ computeDatetimeRaw msgTwoRevisions = .ok dateSat
    ∧ dateSat ≠ dateFri
    ∧ (messageRow "chat" ["p"] [] msgTwoRevisions).map
        (fun cells => (cells.get? 1).map Cell.value)
      = .ok (some (.dt ⟨2024, 10, 26, 4, 21, 37⟩))
    ∧ strptimeGoogle dateFri = some ⟨2024, 10, 25, 3, 20, 36⟩ := by
  refine ⟨rfl, rfl, by decide, rfl, rfl⟩

/-- C2: the code, not the claim, is at fault.  For a message with an
empty timestamp whose `previous_message_versions` key is absent, the
`.get('previous_message_versions', [{}])` default makes the loop visit
the empty dict `{}`, and the bracket access `upload['created_date']`
raises `KeyError` — field transformation does not succeed and nothing
defaults to an empty cell.  (With a present-but-empty revision list the
claimed behavior does hold: the raw timestamp stays empty and the
datetime cell is the empty string.) -/
theorem claim2_code_bug_eval :
    computeDatetimeRaw msgAllAbsent = .error (.keyError "created_date")
    ∧ (messageRow "chat" ["p"] [] msgAllAbsent).map (fun _ => ())
      = .error (.keyError "created_date")
    ∧ computeDatetimeRaw msgEmptyRevisions = .ok ""
    ∧ (messageRow "chat" ["p"] [] msgEmptyRevisions).map
        (fun cells => (cells.get? 1).map Cell.value)
      = .ok (some (.str "")) := by
  refine ⟨rfl, rfl, rfl, rfl⟩

/-- C3, counterexample: for a message whose upload-metadata list is
non-empty but whose first entry has no `backend_upload_metadata`, the
claim says the IP cell is the empty string; the code's final `.get` has
no default, so the cell value is Python `None` (an empty cell), which is
not the empty string. -/
theorem claim3_counterexample :
    ipOf msgBareUpload = none
    ∧ (messageRow "chat" ["p"] [] msgBareUpload).map
        (fun cells => (cells.get? 5).map Cell.value)
      = .ok (some .pynone)
    ∧ CellVal.pynone ≠ CellVal.str "" := by
  refine ⟨rfl, rfl, by decide⟩

/-- C3, amended: the IP cell is non-empty only if the upload-metadata
list exists and is non-empty, in which case it equals the first entry's
`backend_upload_metadata → upload_ip` lookup; an absent or empty list
yields the empty string, while absence at a deeper level (the first
entry's `backend_upload_metadata` or its `upload_ip`) yields a `None`
(empty) cell value, not the empty string. -/
theorem claim3_amended_thm (m : Message) :
    (m.upload_metadata.getD [] = [] → ipOf m = some "")
    ∧ (∀ u us, m.upload_metadata = some (u :: us) →
        ipOf m = u.backend_upload_metadata.bind BackendUploadMetadata.upload_ip)
    ∧ (∀ s : String, s ≠ "" → ipOf m = some s →
        ∃ u us, m.upload_metadata = some (u :: us)
          ∧ u.backend_upload_metadata.bind BackendUploadMetadata.upload_ip = some s) := by
  refine ⟨?_, ?_, ?_⟩
  · intro h
    match hm : m.upload_metadata with
    | none => simp [ipOf, hm]
    | some [] => simp [ipOf, hm]
    | some (u :: us) => rw [hm] at h; simp at h
  · intro u us hm
    simp only [ipOf, hm]
    match hb : u.backend_upload_metadata with
    | none => simp
    | some b => simp
  · intro s hs hip
    match hm : m.upload_metadata with
    | none => rw [ipOf, hm] at hip; simp at hip; exact absurd hip.symm hs
    | some [] => rw [ipOf, hm] at hip; simp at hip; exact absurd hip.symm hs
    | some (u :: us) =>
      refine ⟨u, us, rfl, ?_⟩
      rw [ipOf, hm] at hip
      simp only [] at hip
      match hb : u.backend_upload_metadata with
      | none => rw [hb] at hip; simp [Option.getD] at hip
      | some b => rw [hb] at hip; simpa using hip

/-- C3, witness for the amended theorem at a concrete message carrying a
full upload-metadata chain. -/
theorem claim3_witness :
    ipOf ⟨none, none, none, none, none, some [⟨some ⟨some "1.2.3.4"⟩⟩]⟩ = some "1.2.3.4" := by
  have h := (claim3_amended_thm
    ⟨none, none, none, none, none, some [⟨some ⟨some "1.2.3.4"⟩⟩]⟩).2.1
    ⟨some ⟨some "1.2.3.4"⟩⟩ [] rfl
  simpa using h

/-- C4: `parseGoogleDate` maps the sample raw string to 2024-10-25
03:20:36 (UTC), maps the empty string to the empty output, and its
preprocessing replaces the narrow no-break space with a regular space and
trims surrounding whitespace (the variants with a narrow no-break space
before `AM` and with surrounding whitespace parse to the same value). -/
theorem claim4_date_normalization :
    parseGoogleDate "Friday, October 25, 2024 at 3:20:36 AM UTC"
      = .ok (.dt ⟨2024, 10, 25, 3, 20, 36⟩)
    ∧ parseGoogleDate "" = .ok .blank
    ∧ parseGoogleDate "Friday, October 25, 2024 at 3:20:36\u202FAM UTC"
      = .ok (.dt ⟨2024, 10, 25, 3, 20, 36⟩)
    ∧ parseGoogleDate "  Friday, October 25, 2024 at 3:20:36\u202FAM UTC \u202F"
      = .ok (.dt ⟨2024, 10, 25, 3, 20, 36⟩)
    ∧ replaceChar "a\u202Fb" nnbsp ' ' = "a b"
    ∧ pyStrip "  Friday, X  " = "Friday, X" := by
  refine ⟨rfl, rfl, rfl, rfl, rfl, rfl⟩

/-- C1, amended: for a Message whose top-level timestamp is empty and
whose revision-history list is present, with every scanned entry carrying
a `created_date` key, the timestamp chosen for the output row is the
*last* entry in that list with a non-empty `created_date` value, scanned
in list order (the loop overwrites without breaking). -/
theorem claim1_amended_thm (m : Message) (revs : List Revision)
    (h0 : m.created_date.getD "" = "")
    (h1 : m.previous_message_versions = some revs)
    (h2 : ∀ r ∈ revs, r.created_date.isSome) :
    computeDatetimeRaw m
      = .ok (((revs.map (fun r => r.created_date.getD "")).filter
               (fun s => s ≠ "")).getLastD "") := by
  unfold computeDatetimeRaw
  simp only []
  rw [h0, if_pos rfl, h1]
  simp only [Option.getD_some]
  exact fallbackLoop_spec revs "" h2

/-- C1, witness: the amended theorem applied to the two-revision sample
message. -/
theorem claim1_witness :
    computeDatetimeRaw msgTwoRevisions
      = .ok ((([⟨some dateFri⟩, ⟨some dateSat⟩].map
               (fun (r : Revision) => r.created_date.getD "")).filter
               (fun s => s ≠ "")).getLastD "") :=
  claim1_amended_thm msgTwoRevisions [⟨some dateFri⟩, ⟨some dateSat⟩] rfl rfl
    (by decide)

/-- C5: for a Message with at least one attachment whose Export File
lives below the workbook directory, the attachment cell displays the
newline-joined list of all export names, while the cell's hyperlink
target is only the first attachment's path — the file's parent directory
joined with the first export name, expressed relative to the workbook
directory and joined with forward slashes (backslashes normalized). -/
theorem claim5_attachment_cell (cid : String) (dir t : List String) (m : Message)
    (a : String) (rest : List String) (cells : List Cell)
    (hatt : attachListOf m = a :: rest)
    (hrow : messageRow cid (dir ++ t) dir m = .ok cells) :
    ∃ c5, cells.get? 4 = some c5
      ∧ c5.value = .str (joinSep "\n" (a :: rest))
      ∧ c5.hyperlink = some (replaceChar (joinSep "/" (t ++ [a])) '\\' '/')
      ∧ c5.style = some "Hyperlink" := by
  unfold messageRow at hrow
  cases hdt : computeDatetimeRaw m with
  | error e => rw [hdt] at hrow; simp at hrow
  | ok dtraw =>
    rw [hdt] at hrow
    simp only [] at hrow
    cases hp : parseGoogleDate dtraw with
    | error e => rw [hp] at hrow; simp at hrow
    | ok dtp =>
      rw [hp] at hrow
      simp only [] at hrow
      rw [hatt] at hrow
      simp only [Except.ok.injEq] at hrow
      subst hrow
      refine ⟨_, rfl, rfl, ?_, rfl⟩
      show some (hyperlinkPath ((dir ++ t) ++ [a]) dir)
        = some (replaceChar (joinSep "/" (t ++ [a])) '\\' '/')
      congr 1
      unfold hyperlinkPath
      rw [List.append_assoc, relpathComponents_append,
        renderRelpath_ne_nil _ (by simp)]

/-- C5, witness: applied to the two-attachment sample message in
`home/export/Groups/Dm 4/`, with the workbook in `home/export/`. -/
theorem claim5_witness :
    ∃ cells c5,
      messageRow "Dm 4" ["home", "export", "Groups", "Dm 4"] ["home", "export"] msgAttach
        = .ok cells
      ∧ cells.get? 4 = some c5
      ∧ c5.value = .str "a.png\nb.png"
      ∧ c5.hyperlink = some "Groups/Dm 4/a.png"
      ∧ c5.style = some "Hyperlink" := by
  obtain ⟨c5, h1, h2, h3, h4⟩ := claim5_attachment_cell "Dm 4" ["home", "export"]
    ["Groups", "Dm 4"] msgAttach "a.png" ["b.png"] _ rfl rfl
  exact ⟨_, c5, rfl, h1, h2.trans rfl, h3.trans rfl, h4⟩

/-- C6: discovery returns exactly the paths that name a regular file
anywhere beneath the root whose filename lowercases to `messages.json`,
and nothing else. -/
theorem claim6_discovery (cs : List FSNode) (p : List String) :
    p ∈ findMessagesJson cs
      ↔ (isFileIn cs p = true ∧ pyLower (p.getLastD "") = "messages.json") := by
  unfold findMessagesJson
  rw [List.mem_map]
  constructor
  · rintro ⟨e, he, rfl⟩
    rw [List.mem_filter] at he
    obtain ⟨hmem, hpred⟩ := he
    rw [Bool.and_eq_true] at hpred
    have hmem2 : (e.1, true) ∈ childEntries cs := by
      have hb : e.2 = true := hpred.1
      cases e
      simp_all
    exact ⟨(childEntries_file_iff e.1 cs).mp hmem2, by simpa using hpred.2⟩
  · rintro ⟨hfile, hname⟩
    refine ⟨(p, true), ?_, rfl⟩
    rw [List.mem_filter]
    refine ⟨(childEntries_file_iff p cs).mpr hfile, ?_⟩
    show (true && (pyLower (p.getLastD "") == "messages.json")) = true
    rw [Bool.true_and, hname]
    exact beq_self_eq_true _

/-- C6, witness: the characterization applied to a small concrete tree
with a case-varied filename at depth two. -/
theorem claim6_witness :
    ["Dm 4", "Messages.JSON"]
      ∈ findMessagesJson [FSNode.dir "Dm 4" [FSNode.file "Messages.JSON"]] :=
  (claim6_discovery [FSNode.dir "Dm 4" [FSNode.file "Messages.JSON"]]
    ["Dm 4", "Messages.JSON"]).mpr ⟨by decide, rfl⟩

/-- C7: `parseChats` appends exactly one data row per message of each
discovered Export File — no splitting or merging — and the appended rows
follow file-discovery order and, within each file, in-file message order
(`rowsOfFiles` lists them in exactly that order); on success the number
of appended rows is the total number of messages. -/
theorem claim7_one_row_per_message (ws : Worksheet) (files : List JsonFile)
    (dir : List String) :
    parseChats ws files dir
      = (rowsOfFiles dir files).map (fun rs => { ws with rows := ws.rows ++ rs })
    ∧ (∀ rs, rowsOfFiles dir files = .ok rs
        → rs.length = (files.map (fun jf => jf.messages.length)).sum) :=
  ⟨parseChats_eq ws files dir, fun rs h => rowsOfFiles_length dir files rs h⟩

/-- C7, witness: two files with one and zero messages yield exactly one
appended row. -/
theorem claim7_witness :
    parseChats emptyWorksheet
        [⟨["g", "messages.json"], [msgSimple]⟩, ⟨["h", "messages.json"], []⟩] []
      = (rowsOfFiles [] [⟨["g", "messages.json"], [msgSimple]⟩,
          ⟨["h", "messages.json"], []⟩]).map
          (fun rs => { emptyWorksheet with rows := emptyWorksheet.rows ++ rs })
    ∧ ∃ rs, rowsOfFiles [] [⟨["g", "messages.json"], [msgSimple]⟩,
          ⟨["h", "messages.json"], []⟩] = .ok rs ∧ rs.length = 1 := by
  have h := claim7_one_row_per_message emptyWorksheet
    [⟨["g", "messages.json"], [msgSimple]⟩, ⟨["h", "messages.json"], []⟩] []
  exact ⟨h.1, _, rfl, (h.2 _ rfl).trans rfl⟩

/-- C8: when discovery finds zero `messages.json` files, the run prints
the "no files found" message, exits with status 0, and writes no
workbook. -/
theorem claim8_zero_files (tree : List FSNode) (contents : List String → List Message)
    (h : findMessagesJson tree = []) :
    mainRun 2 true tree contents = .ok ⟨0, false, false, true, none, none⟩ := by
  simp [mainRun, h]

/-- C8, witness: a tree with no matching file. -/
theorem claim8_witness :
    mainRun 2 true [FSNode.dir "Groups" [FSNode.file "readme.txt"]] (fun _ => [])
      = .ok ⟨0, false, false, true, none, none⟩ :=
  claim8_zero_files [FSNode.dir "Groups" [FSNode.file "readme.txt"]] (fun _ => []) rfl

/-- C9: during cleanup, wrap-enabled alignment is written only to the
text and attachment cells (columns 4 and 5) of the table's last row; the
alignment of every other cell — in particular those cells in every other
data row — is left unchanged. -/
theorem claim9_wrap_only_last_row (ws : Worksheet) :
    (∀ r c, 1 ≤ r → 1 ≤ c → ¬(r = ws.rows.length ∧ (c = 4 ∨ c = 5))
      → cellAlignment (cleanup ws) r c = cellAlignment ws r c)
    ∧ (∀ c, c = 4 ∨ c = 5
      → cellAlignment (cleanup ws) ws.rows.length c
        = (cellAlignment ws ws.rows.length c).map (fun _ => wrapAlign)) := by
  constructor
  · intro r c hr hc hnot
    unfold cellAlignment
    rw [cleanup_getCell]
    rcases Nat.eq_zero_or_pos ws.rows.length with hL | hL
    · have hnil : ws.rows = [] := List.length_eq_zero.mp hL
      unfold setAlignmentAt updateCell getCell
      simp [hnil, modifyAt]
    · by_cases hrL : r = ws.rows.length
      · have hc45 : c ≠ 4 ∧ c ≠ 5 := by
          constructor <;> intro hcc <;> exact hnot ⟨hrL, by simp [hcc]⟩
        unfold setAlignmentAt
        rw [getCell_updateCell_ne _ _ _ _ _ _ hr hc hL (by norm_num) (Or.inr hc45.2)]
        rw [getCell_updateCell_ne _ _ _ _ _ _ hr hc hL (by norm_num) (Or.inr hc45.1)]
      · unfold setAlignmentAt
        rw [getCell_updateCell_ne _ _ _ _ _ _ hr hc hL (by norm_num) (Or.inl hrL)]
        rw [getCell_updateCell_ne _ _ _ _ _ _ hr hc hL (by norm_num) (Or.inl hrL)]
  · intro c hc45
    unfold cellAlignment
    rw [cleanup_getCell]
    rcases Nat.eq_zero_or_pos ws.rows.length with hL | hL
    · have hnil : ws.rows = [] := List.length_eq_zero.mp hL
      unfold setAlignmentAt updateCell getCell
      simp [hnil, modifyAt]
    · rcases hc45 with rfl | rfl
      · unfold setAlignmentAt
        rw [getCell_updateCell_ne _ _ _ _ _ _ hL (by norm_num) hL (by norm_num)
          (Or.inr (by norm_num))]
        rw [getCell_updateCell_eq]
        cases getCell ws ws.rows.length 4 <;> rfl
      · unfold setAlignmentAt
        rw [getCell_updateCell_eq]
        rw [getCell_updateCell_ne _ _ _ _ _ _ hL (by norm_num) hL (by norm_num)
          (Or.inr (by norm_num))]
        cases getCell ws ws.rows.length 5 <;> rfl

/-- C9, witness: on a two-row sheet, cleanup leaves row 1 column 4
untouched and wraps row 2 column 4. -/
theorem claim9_witness :
    cellAlignment
        (cleanup ⟨[[plainCell (.str "x")],
          [plainCell (.str "a"), plainCell (.str "b"), plainCell (.str "c"),
           plainCell (.str "d"), plainCell (.str "e")]], [], none, none⟩) 1 4
      = cellAlignment ⟨[[plainCell (.str "x")],
          [plainCell (.str "a"), plainCell (.str "b"), plainCell (.str "c"),
           plainCell (.str "d"), plainCell (.str "e")]], [], none, none⟩ 1 4
    ∧ cellAlignment
        (cleanup ⟨[[plainCell (.str "x")],
          [plainCell (.str "a"), plainCell (.str "b"), plainCell (.str "c"),
           plainCell (.str "d"), plainCell (.str "e")]], [], none, none⟩) 2 4
      = (cellAlignment ⟨[[plainCell (.str "x")],
          [plainCell (.str "a"), plainCell (.str "b"), plainCell (.str "c"),
           plainCell (.str "d"), plainCell (.str "e")]], [], none, none⟩ 2 4).map
          (fun _ => wrapAlign) := by
  have h := claim9_wrap_only_last_row ⟨[[plainCell (.str "x")],
    [plainCell (.str "a"), plainCell (.str "b"), plainCell (.str "c"),
     plainCell (.str "d"), plainCell (.str "e")]], [], none, none⟩
  exact ⟨h.1 1 4 (by norm_num) (by norm_num) (by decide), h.2 4 (Or.inl rfl)⟩

/-- C10: when every discovered file yields zero messages, the table's
last row is the header row itself, so cleanup overwrites the header cells
D1 and E1 — their centered header alignment becomes the wrap-only
alignment, which differs from it — while a workbook containing only the
(otherwise still header-styled) header row is still written. -/
theorem claim10_header_overwritten (files : List JsonFile) (dir : List String)
    (h : ∀ jf ∈ files, jf.messages = []) :
    ∃ wb : SavedWorkbook,
      createWorkbook files dir = .ok wb
      ∧ wb.sheet.rows.length = 1
      ∧ cellAlignment wb.sheet 1 4 = some wrapAlign
      ∧ cellAlignment wb.sheet 1 5 = some wrapAlign
      ∧ cellAlignment wb.sheet 1 1 = some centerAlign
      ∧ wrapAlign ≠ centerAlign
      ∧ wb.sheet.rows.map (fun row => row.map Cell.value) = [headers.map CellVal.str] := by
  have hrows := rowsOfFiles_of_all_nil dir files h
  have hpc := parseChats_eq
    ([1, 2, 3, 4, 5, 6].foldl styleHeader (appendValues emptyWorksheet (headers.map CellVal.str)))
    files dir
  rw [hrows] at hpc
  have hcw : createWorkbook files dir
      = .ok ⟨cleanup ([1, 2, 3, 4, 5, 6].foldl styleHeader
          (appendValues emptyWorksheet (headers.map CellVal.str)))⟩ := by
    unfold createWorkbook
    simp only []
    rw [hpc]
    simp only [Except.map]
    congr 2
  refine ⟨_, hcw, ?_, ?_, ?_, ?_, ?_, ?_⟩ <;> decide

/-- C10, witness: one file, zero messages. -/
theorem claim10_witness :
    ∃ wb : SavedWorkbook,
      createWorkbook [⟨["g", "messages.json"], []⟩] [] = .ok wb
      ∧ wb.sheet.rows.length = 1
      ∧ cellAlignment wb.sheet 1 4 = some wrapAlign := by
  obtain ⟨wb, h1, h2, h3, -⟩ :=
    claim10_header_overwritten [⟨["g", "messages.json"], []⟩] [] (by simp)
  exact ⟨wb, h1, h2, h3⟩
